import Mathlib

/-!
Shallow embedding of the responses-proxy protocol translator
(`src/services/converter.rs`, `src/utils/xml_tool_parser.rs`,
`src/handlers/responses.rs`) together with proofs of the spec claims.

External library behaviour (serde_json parsing of untrusted input) is
abstracted as an explicit `parse` argument; everything the repository
itself computes is translated definition-by-definition from the source.
Rust `u64`/`u32` counters are modelled as `Nat` with explicit saturation
at `2^64 - 1` / `2^32 - 1`.
-/

namespace ResponsesProxy

/-- Minimal JSON value model (the shapes `serde_json::Value` takes in the
portions of the code under verification). -/
inductive Json where
  | null : Json
  | bool (b : Bool) : Json
  | num (n : Int) : Json
  | str (s : String) : Json
  | arr (items : List Json) : Json
  | obj (fields : List (String × Json)) : Json

/-- Field lookup on a JSON object field list (serde `Map::get`). -/
def objGet : List (String × Json) → String → Option Json
  | [], _ => none
  | (k', v) :: t, k => if k' = k then some v else objGet t k

/-- `Value::get` on objects, `None` on every other shape. -/
def jsonGet : Json → String → Option Json
  | .obj fields, k => objGet fields k
  | _, _ => none

/-- `Value::as_str`. -/
def jsonAsStr : Json → Option String
  | .str s => some s
  | _ => none

/-- `v.get(key).and_then(Value::as_str)`. -/
def jsonGetStr (v : Json) (k : String) : Option String :=
  (jsonGet v k).bind jsonAsStr

/-! ### String utilities mirroring the Rust `str` methods used -/

/-- Index of the first occurrence of `needle` in `hay` (Rust `str::find`). -/
def findSub (needle : List Char) : List Char → Option Nat
  | [] => if needle = [] then some 0 else none
  | c :: t =>
    if needle.isPrefixOf (c :: t) then some 0
    else (findSub needle t).map (· + 1)

/-- Rust `str::contains` for string patterns. -/
def hasSub (needle hay : List Char) : Bool :=
  (findSub needle hay).isSome

/-- `str::contains` lifted to `String`. -/
def strContains (hay needle : String) : Bool :=
  hasSub needle.data hay.data

/-- ASCII lowercasing of one character (Rust `char::to_ascii_lowercase`). -/
def charAsciiLower (c : Char) : Char :=
  if 'A' ≤ c ∧ c ≤ 'Z' then Char.ofNat (c.toNat + 32) else c

/-- Rust `str::to_ascii_lowercase`. -/
def strAsciiLower (s : String) : String :=
  String.mk (s.data.map charAsciiLower)

/-! ### `src/services/converter.rs`: `translate_finish_reason` -/

/-- Translate Chat Completions `finish_reason` to a Responses API status
(`translate_finish_reason`, converter.rs lines 452-461). -/
def translate_finish_reason : Option String → String
  | some s =>
    if s = "stop" then "completed"
    else if s = "length" then "incomplete"
    else if s = "content_filter" then "failed"
    else if s = "tool_calls" then "completed"
    else "completed"
  | none => "in_progress"

/-! ### `src/utils/xml_tool_parser.rs` -/

/-- A tool call recovered from in-band XML (`ParsedToolCall`). -/
structure ParsedToolCall where
  name : String
  arguments : String
  deriving DecidableEq, Repr

/-- Detection heuristic for XML-style tool calls
(`contains_xml_tool_call`): case-insensitive substring match on the five
markers. -/
def contains_xml_tool_call (text : String) : Bool :=
  let normalized := strAsciiLower text
  strContains normalized "<function="
    || strContains normalized "</function>"
    || strContains normalized "<tool_call"
    || strContains normalized "</tool_call>"
    || strContains normalized "<parameter="

/-- JSON string escaping used when serialising the recovered parameter map
(the common ASCII escapes of `serde_json::to_string`; the parameter values
never feed any claim, only their assembled `arguments` string). -/
def escapeJsonChar (c : Char) : List Char :=
  let backslash := Char.ofNat 92
  let quote := Char.ofNat 34
  if c = quote then [backslash, quote]
  else if c = backslash then [backslash, backslash]
  else if c = '\n' then [backslash, 'n']
  else if c = '\t' then [backslash, 't']
  else if c = '\r' then [backslash, 'r']
  else [c]

/-- Serialise the parameter map to a JSON object string
(`serde_json::to_string(&params)`). -/
def serializeParams (ps : List (String × String)) : String :=
  let esc := fun (s : String) => String.mk (s.data.flatMap escapeJsonChar)
  "\x7b"
    ++ String.intercalate ","
        (ps.map (fun p => "\"" ++ esc p.1 ++ "\":\"" ++ esc p.2 ++ "\""))
    ++ "\x7d"

/-- Inner loop of the salvager: parse `<parameter=KEY>VALUE</parameter>`
pairs out of the function body (xml_tool_parser.rs lines 64-93).  `fuel`
bounds the iteration count; the caller passes more fuel than there are
characters, which dominates the loop's progress. -/
def parseParams (content : List Char) : Nat → Nat → List (String × String) →
    List (String × String)
  | 0, _, acc => acc
  | fuel + 1, param_start, acc =>
    match findSub "<parameter=".data (content.drop param_start) with
    | none => acc
    | some param_idx =>
      let abs_param_start := param_start + param_idx
      let param_name_start := abs_param_start + "<parameter=".length
      match findSub ['>'] (content.drop param_name_start) with
      | none => acc
      | some i =>
        let param_name_end := param_name_start + i
        let param_name :=
          String.mk ((content.drop param_name_start).take (param_name_end - param_name_start))
        let param_value_start := param_name_end + 1
        match findSub "</parameter>".data (content.drop param_value_start) with
        | none => acc
        | some j =>
          let param_value_end := param_value_start + j
          let param_value :=
            (String.mk ((content.drop param_value_start).take
              (param_value_end - param_value_start))).trim
          parseParams content fuel (param_value_end + "</parameter>".length)
            (acc ++ [(param_name, param_value)])

/-- Outer loop of the salvager (xml_tool_parser.rs lines 37-105): scan for
`<function=`, read the name, find the closing tag, parse parameters,
splice the matched span out of the text.  `fuel` bounds the iteration
count; each iteration either consumes text or advances the cursor. -/
def extractLoop : Nat → List Char → Nat → List ParsedToolCall →
    List Char × List ParsedToolCall
  | 0, cleaned, _, acc => (cleaned, acc)
  | fuel + 1, cleaned, start_idx, acc =>
    match findSub "<function=".data (cleaned.drop start_idx) with
    | none => (cleaned, acc)
    | some func_start =>
      let absolute_start := start_idx + func_start
      let name_start := absolute_start + "<function=".length
      match findSub ['>'] (cleaned.drop name_start) with
      | none => (cleaned, acc)
      | some i =>
        let name_end := name_start + i
        let function_name :=
          String.mk ((cleaned.drop name_start).take (name_end - name_start))
        let content_start := name_end + 1
        let end_tag? :=
          match findSub "</function>".data (cleaned.drop content_start) with
          | some idx => some (content_start + idx + "</function>".length)
          | none =>
            match findSub "</tool_call>".data (cleaned.drop content_start) with
            | some idx => some (content_start + idx + "</tool_call>".length)
            | none => none
        match end_tag? with
        | none => extractLoop fuel cleaned (name_end + 1) acc
        | some end_tag =>
          let content := (cleaned.drop content_start).take (end_tag - content_start)
          let params := parseParams content (content.length + 1) 0 []
          let arguments := serializeParams params
          let cleaned' := cleaned.take absolute_start ++ cleaned.drop end_tag
          extractLoop fuel cleaned' absolute_start
            (acc ++ [{ name := function_name, arguments := arguments }])

/-- Extract and parse XML-style tool calls from text
(`extract_xml_tool_calls`).  Returns `(cleaned_text, parsed_calls)`; when
no marker is present the input is returned trimmed with no calls. -/
def extract_xml_tool_calls (text : String) : String × List ParsedToolCall :=
  if !contains_xml_tool_call text then (text.trim, [])
  else
    let r := extractLoop (text.data.length + 1) text.data 0 []
    ((String.mk r.1).trim, r.2)

/-! ### `src/handlers/responses.rs`: `EventSequencer` -/

/-- `u64::MAX`, the saturation point of the event-id counter. -/
def U64_MAX : Nat := 2 ^ 64 - 1

/-- `u32::MAX`, the saturation point of the sequence counter. -/
def U32_MAX : Nat := 2 ^ 32 - 1

/-- Rust `saturating_add(1)` at cap `cap`. -/
def satAdd1 (cap n : Nat) : Nat := min (n + 1) cap

/-- One lowercase hex digit (Rust lowercase-hex formatting). -/
def hexDigit (n : Nat) : Char :=
  if n < 10 then Char.ofNat (48 + n) else Char.ofNat (87 + n)

/-- 16-hex-digit zero-padded rendering of a counter value
(Rust 16-wide zero-padded lowercase-hex format, exact for values
below `2 ^ 64`). -/
def hex16 (n : Nat) : String :=
  String.mk ((List.range 16).map (fun i => hexDigit (n / 16 ^ (15 - i) % 16)))

/-- Per-response monotonic event/sequence counter state (`EventSequencer`). -/
structure EventSequencer where
  next_event_id : Nat
  next_sequence : Nat
  deriving DecidableEq, Repr

/-- `EventSequencer::new`. -/
def EventSequencer.new : EventSequencer := ⟨0, 0⟩

/-- `EventSequencer::prepare` (responses.rs lines 61-78): increment both
saturating counters, then stamp.  Returns the updated sequencer, the
stamped `event_id`, and the stamped `sequence_number`. -/
def EventSequencer.prepare (sq : EventSequencer) (response_id : String) :
    EventSequencer × String × Nat :=
  let next_event_id := satAdd1 U64_MAX sq.next_event_id
  let next_sequence := satAdd1 U32_MAX sq.next_sequence
  (⟨next_event_id, next_sequence⟩,
    "evt_" ++ response_id ++ "_" ++ hex16 next_event_id,
    next_sequence)

/-- An event paired with the identifiers `prepare` stamped onto it. -/
structure Stamped (α : Type) where
  event : α
  event_id : String
  sequence_number : Nat
  deriving DecidableEq, Repr

/-- Stamp a list of events through one sequencer, threading its state
(the orchestrator's `dispatch_event` applied along the stream). -/
def stampAux {α : Type} (response_id : String) :
    EventSequencer → List α → List (Stamped α)
  | _, [] => []
  | sq, e :: t =>
    let r := sq.prepare response_id
    { event := e, event_id := r.2.1, sequence_number := r.2.2 }
      :: stampAux response_id r.1 t

/-- Stamp a whole response stream starting from a fresh sequencer. -/
def stampRun {α : Type} (response_id : String) (evs : List α) : List (Stamped α) :=
  stampAux response_id .new evs

/-! ### `src/models`: request-side data model -/

/-- `FunctionDef` (openai_responses.rs). -/
structure FunctionDef where
  name : String
  description : Option String
  parameters : Json

/-- `Tool`: nested Responses shape or flat Chat shape (openai_responses.rs). -/
inductive Tool where
  | nested (type_ : String) (function : FunctionDef)
  | flat (type_ : String) (name : Option String) (description : Option String)
      (parameters : Option Json) (strict : Bool) (extra : Json)

/-- `Tool::type_`. -/
def Tool.type_ : Tool → String
  | .nested t _ => t
  | .flat t _ _ _ _ _ => t

/-- `Tool::function_def`: surface the canonical `FunctionDef`, with the
flat shape falling back to `extra`/`type_` for missing fields. -/
def Tool.function_def : Tool → FunctionDef
  | .nested _ f => f
  | .flat type_ name description parameters _ extra =>
    { name := (name.or (jsonGetStr extra "name")).getD type_
      description := description.or (jsonGetStr extra "description")
      parameters := parameters.getD (Json.obj []) }

/-- `ToolChoice` (openai_responses.rs): string variant or specific function. -/
inductive ToolChoice where
  | string (s : String)
  | specific (type_ : String) (functionName : String)

/-- `ContentPart` (openai_responses.rs). -/
inductive ContentPart where
  | inputText (text : String)
  | outputText (text : String)
  | inputImage (url : String)
  | inputFile (file_id filename file_url file_data : Option String)
  | reasoning (text : String) (encrypted_content : Option String)

/-- `ResponseContent`. -/
inductive ResponseContent where
  | string (text : String)
  | array (parts : List ContentPart)

/-- `ResponseInputItem`. -/
inductive ResponseInputItem where
  | message (role : String) (content : ResponseContent)
  | reasoning (text : Option String) (encrypted_content : Option String)
  | itemReference (id : String)
  | functionCall (call_id name arguments : String)
  | functionCallOutput (call_id output : String)

/-- `ResponseInput`. -/
inductive ResponseInput where
  | string (text : String)
  | array (items : List ResponseInputItem)

/-- The fields of `ResponseRequest` that `convert_to_chat_completions`
reads (sampling knobs are opaque pass-through values). -/
structure ResponseRequest where
  model : Option String := none
  input : Option ResponseInput := none
  instructions : Option String := none
  max_output_tokens : Option Nat := none
  temperature : Option Rat := none
  top_p : Option Rat := none
  tools : Option (List Tool) := none
  tool_choice : Option ToolChoice := none
  parallel_tool_calls : Option Bool := none
  stream : Option Bool := none

/-! ### `src/models/chat_completions.rs`: backend request shapes -/

/-- `ChatMessage`. -/
structure ChatMessage where
  role : String
  content : Option Json
  tool_calls : Option (List Json)
  tool_call_id : Option String

/-- `ChatFunction`. -/
structure ChatFunction where
  name : String
  description : Option String
  parameters : Json

/-- `ChatTool` (single `Function` variant). -/
inductive ChatTool where
  | function (type_ : String) (function : ChatFunction)

/-- The name of a converted Chat tool (`function.name`). -/
def ChatTool.toolName : ChatTool → String
  | .function _ f => f.name

/-- The fields of `ChatCompletionRequest` that the converter populates. -/
structure ChatCompletionRequest where
  model : String
  messages : List ChatMessage
  max_tokens : Option Nat
  temperature : Option Rat
  top_p : Option Rat
  tools : Option (List ChatTool)
  tool_choice : Option Json
  parallel_tool_calls : Option Bool
  stream : Bool

/-! ### `src/services/converter.rs`: request translation -/

/-- `convert_response_content` (converter.rs lines 375-449): lower a
Responses content value to a Chat content value, extracting inline
reasoning text.  `input_file` parts are dropped. -/
def convert_response_content (content : ResponseContent) : Json × Option String :=
  match content with
  | .string text => (Json.str text, none)
  | .array parts =>
    let step := fun (st : String × List Json) (part : ContentPart) =>
      match part with
      | .inputText text | .outputText text =>
        (st.1, st.2 ++ [Json.obj [("type", Json.str "text"), ("text", Json.str text)]])
      | .inputImage url =>
        (st.1, st.2 ++ [Json.obj [("type", Json.str "image_url"),
          ("image_url", Json.obj [("url", Json.str url)])]])
      | .inputFile _ _ _ _ => st
      | .reasoning text _ =>
        ((if st.1 = "" then st.1 else st.1 ++ "\n") ++ text, st.2)
    let r := parts.foldl step ("", [])
    let reasoning_text := r.1
    let converted := r.2
    let has_images := parts.any (fun p => match p with
      | .inputImage _ => true
      | _ => false)
    let has_reasoning := reasoning_text ≠ ""
    let reasoningOut := if has_reasoning then some reasoning_text else none
    if !has_images && !converted.isEmpty then
      let text := String.intercalate "\n" (parts.filterMap (fun p => match p with
        | .inputText t | .outputText t => some t
        | _ => none))
      (Json.str text, reasoningOut)
    else
      (Json.arr converted, reasoningOut)

/-- The `function_call_output` content computation (converter.rs lines
111-125): if the output string parses as JSON with an inner string field
`"output"`, use that string, else the raw output.  `parsed` is the
abstracted `serde_json::from_str` result. -/
def fcOutputContent (parsed : Option Json) (output : String) : String :=
  match parsed with
  | some p =>
    match jsonGetStr p "output" with
    | some inner_output => inner_output
    | none => output
  | none => output

/-- Accumulator of the input-item walk: emitted messages plus the pending
reasoning strings and tool calls awaiting an assistant message. -/
structure WalkState where
  messages : List ChatMessage
  accumulated_reasoning : List String
  pending_tool_calls : List Json

/-- One step of the input-item walk (converter.rs lines 44-155).  `parse`
abstracts `serde_json::from_str` on `function_call_output` payloads. -/
def processInputItem (parse : String → Option Json) (ws : WalkState)
    (item : ResponseInputItem) : WalkState :=
  match item with
  | .message role content =>
    let r := convert_response_content content
    let acc := match r.2 with
      | some content_think => ws.accumulated_reasoning ++ [content_think]
      | none => ws.accumulated_reasoning
    let msg_content :=
      if role = "assistant" ∧ acc ≠ [] then
        let thinking_text := String.intercalate "\n" acc
        let original_content := (jsonAsStr r.1).getD ""
        Json.str ("<think>" ++ thinking_text ++ "</think>\n" ++ original_content)
      else r.1
    let acc' := if role = "assistant" ∧ acc ≠ [] then [] else acc
    if role = "assistant" ∧ !ws.pending_tool_calls.isEmpty then
      let msg : ChatMessage :=
        { role := role
          content := some msg_content
          tool_calls := some ws.pending_tool_calls
          tool_call_id := none }
      { messages := ws.messages ++ [msg]
        accumulated_reasoning := acc'
        pending_tool_calls := [] }
    else
      let msg : ChatMessage :=
        { role := role
          content := some msg_content
          tool_calls := none
          tool_call_id := none }
      { messages := ws.messages ++ [msg]
        accumulated_reasoning := acc'
        pending_tool_calls := ws.pending_tool_calls }
  | .functionCall call_id name arguments =>
    { ws with pending_tool_calls := ws.pending_tool_calls ++
        [Json.obj [("id", Json.str call_id), ("type", Json.str "function"),
          ("function", Json.obj [("name", Json.str name),
            ("arguments", Json.str arguments)])]] }
  | .functionCallOutput call_id output =>
    let content_str := fcOutputContent (parse output) output
    let msg : ChatMessage :=
      { role := "tool"
        content := some (Json.str content_str)
        tool_calls := none
        tool_call_id := some call_id }
    { ws with messages := ws.messages ++ [msg] }
  | .reasoning text _ =>
    match text with
    | some reasoning_text =>
      { ws with accumulated_reasoning := ws.accumulated_reasoning ++ [reasoning_text] }
    | none => ws
  | .itemReference _ => ws

/-- `tool_exists` (converter.rs lines 219-223). -/
def toolExists (tools : List ChatTool) (nm : String) : Bool :=
  tools.any (fun t => match t with
    | .function _ f => f.name = nm)

/-- Injected default `apply_patch` tool (converter.rs lines 229-248). -/
def applyPatchTool : ChatTool :=
  .function "function"
    { name := "apply_patch"
      description := some "Apply a unified diff patch to create or modify files. Use this to make targeted changes to code."
      parameters := Json.obj [("type", Json.str "object"),
        ("properties", Json.obj [("patch", Json.obj [("type", Json.str "string"),
          ("description", Json.str "The patch content in unified diff format, starting with \x27*** Begin Patch\x27 and ending with \x27*** End Patch\x27")])]),
        ("required", Json.arr [Json.str "patch"]),
        ("additionalProperties", Json.bool false)] }

/-- Injected default `read_file` tool (converter.rs lines 253-280). -/
def readFileTool : ChatTool :=
  .function "function"
    { name := "read_file"
      description := some "Read the contents of a file from the filesystem."
      parameters := Json.obj [("type", Json.str "object"),
        ("properties", Json.obj [
          ("file_path", Json.obj [("type", Json.str "string"),
            ("description", Json.str "Absolute path to the file to read")]),
          ("offset", Json.obj [("type", Json.str "number"),
            ("description", Json.str "1-indexed line number to start reading from (default: 1)")]),
          ("limit", Json.obj [("type", Json.str "number"),
            ("description", Json.str "Maximum number of lines to return (default: 2000)")])]),
        ("required", Json.arr [Json.str "file_path"]),
        ("additionalProperties", Json.bool false)] }

/-- Injected default `list_dir` tool (converter.rs lines 285-306). -/
def listDirTool : ChatTool :=
  .function "function"
    { name := "list_dir"
      description := some "List files and directories in the specified path."
      parameters := Json.obj [("type", Json.str "object"),
        ("properties", Json.obj [
          ("path", Json.obj [("type", Json.str "string"),
            ("description", Json.str "Absolute path to the directory to list")]),
          ("recursive", Json.obj [("type", Json.str "boolean"),
            ("description", Json.str "Whether to list recursively (default: false)")])]),
        ("required", Json.arr [Json.str "path"]),
        ("additionalProperties", Json.bool false)] }

/-- Injected default `grep_files` tool (converter.rs lines 311-338). -/
def grepFilesTool : ChatTool :=
  .function "function"
    { name := "grep_files"
      description := some "Search for a pattern in files using grep-like functionality."
      parameters := Json.obj [("type", Json.str "object"),
        ("properties", Json.obj [
          ("pattern", Json.obj [("type", Json.str "string"),
            ("description", Json.str "The search pattern (regex)")]),
          ("path", Json.obj [("type", Json.str "string"),
            ("description", Json.str "Directory or file path to search in")]),
          ("case_sensitive", Json.obj [("type", Json.str "boolean"),
            ("description", Json.str "Whether the search is case-sensitive (default: true)")])]),
        ("required", Json.arr [Json.str "pattern"]),
        ("additionalProperties", Json.bool false)] }

/-- The function-tool filter of the converter (converter.rs lines 178-213):
keep only tools of type `"function"`, re-emitting each as the nested Chat
shape. -/
def baseFunctionTools (toolsField : Option (List Tool)) : List ChatTool :=
  match toolsField with
  | some tools_vec =>
    tools_vec.filterMap (fun t =>
      if t.type_ = "function" then
        some (.function "function"
          { name := t.function_def.name
            description := t.function_def.description
            parameters := t.function_def.parameters })
      else none)
  | none => []

/-- One conditional default-tool injection (converter.rs lines 227-339):
push the default unless a converted tool already has its name or the name
occurred among the original tools. -/
def injectStep (orig : List String) (ts : List ChatTool) (nm : String)
    (tl : ChatTool) : List ChatTool :=
  if toolExists ts nm || orig.any (fun n => n = nm) then ts else ts ++ [tl]

/-- The complete tools pipeline of `convert_to_chat_completions`: filter to
function tools, inject the four missing defaults, and omit the field only
when the result is empty (converter.rs lines 170-349). -/
def convertedTools (toolsField : Option (List Tool)) : Option (List ChatTool) :=
  let original_tool_names := (toolsField.getD []).map (·.function_def.name)
  let tools0 := baseFunctionTools toolsField
  let tools1 := injectStep original_tool_names tools0 "apply_patch" applyPatchTool
  let tools2 := injectStep original_tool_names tools1 "read_file" readFileTool
  let tools3 := injectStep original_tool_names tools2 "list_dir" listDirTool
  let tools4 := injectStep original_tool_names tools3 "grep_files" grepFilesTool
  if tools4.isEmpty then none else some tools4

/-- The fixed tool-calling disclaimer appended to non-empty instructions
(converter.rs line 17). -/
def toolOverrideText : String :=
  "\n\n---\n\nIMPORTANT: Tool Calling Format Override\nWhen calling functions/tools, you MUST use the standard OpenAI Chat Completions JSON format, NOT any XML or custom syntax. The system will automatically handle tool execution. Never output tool calls as text - use the native function calling mechanism."

/-- `convert_to_chat_completions` (converter.rs lines 8-371).  `parse`
abstracts `serde_json::from_str` on `function_call_output` payloads. -/
def convert_to_chat_completions (parse : String → Option Json)
    (req : ResponseRequest) : Except String ChatCompletionRequest :=
  match req.model with
  | none => .error "Model is required"
  | some model =>
    let instrMsgs : List ChatMessage :=
      match req.instructions with
      | some instructions =>
        if instructions ≠ "" then
          [{ role := "system"
             content := some (Json.str (instructions ++ toolOverrideText))
             tool_calls := none
             tool_call_id := none }]
        else []
      | none => []
    let messages : List ChatMessage :=
      match req.input with
      | none => instrMsgs
      | some (.string text) =>
        instrMsgs ++ [{ role := "user"
                        content := some (Json.str text)
                        tool_calls := none
                        tool_call_id := none }]
      | some (.array items) =>
        (items.foldl (processInputItem parse)
          { messages := instrMsgs
            accumulated_reasoning := []
            pending_tool_calls := [] }).messages
    let tool_choice := req.tool_choice.map (fun tc =>
      match tc with
      | .string s => Json.str s
      | .specific type_ nm =>
        Json.obj [("type", Json.str type_),
          ("function", Json.obj [("name", Json.str nm)])])
    .ok { model := model
          messages := messages
          max_tokens := req.max_output_tokens
          temperature := req.temperature
          top_p := req.top_p
          tools := convertedTools req.tools
          tool_choice := tool_choice
          parallel_tool_calls := req.parallel_tool_calls
          stream := req.stream.getD false }

/-! ### `src/models`: response-side data model (claim-relevant fields) -/

/-- `OutputContent` (openai_responses.rs; the `annotations` list of
`output_text` is always empty in the code under verification and is
omitted). -/
inductive OutputContent where
  | outputText (text : String)
  | reasoning (text : String)
  deriving DecidableEq, Repr

/-- `OutputItem` (openai_responses.rs); `object` is always
`"realtime.item"`. -/
structure OutputItem where
  id : String
  object : String := "realtime.item"
  type_ : String
  status : String
  role : Option String := none
  content : Option (List OutputContent) := none
  call_id : Option String := none
  name : Option String := none
  arguments : Option String := none
  deriving DecidableEq, Repr

/-- `StreamEvent` (openai_responses.rs).  The nested `response` payload is
modelled by its claim-relevant projection: `response_status`,
`response_output` and `incomplete_reason` stand for `response.status`,
`response.output` and `response.incomplete_details.reason`. -/
structure StreamEvent where
  type_ : String
  item_id : Option String := none
  output_index : Option Nat := none
  content_index : Option Nat := none
  delta : Option String := none
  text : Option String := none
  item : Option OutputItem := none
  call_id : Option String := none
  name : Option String := none
  arguments : Option String := none
  response_status : Option String := none
  response_output : Option (List OutputItem) := none
  incomplete_reason : Option String := none
  deriving DecidableEq, Repr

/-! ### `src/models/chat_completions.rs`: backend chunk model -/

/-- `FunctionCallDelta`. -/
structure FunctionCallDelta where
  name : Option String := none
  arguments : Option String := none

/-- `ToolCallDelta`. -/
structure ToolCallDelta where
  index : Nat
  id : Option String := none
  type_ : Option String := none
  function : Option FunctionCallDelta := none

/-- `Delta`. -/
structure Delta where
  content : Option Json := none
  tool_calls : Option (List ToolCallDelta) := none
  reasoning_content : Option String := none

/-- `Choice`. -/
structure Choice where
  delta : Option Delta := none
  message : Option Json := none
  finish_reason : Option String := none

/-- `ChatUsage`. -/
structure ChatUsage where
  prompt_tokens : Option Nat := none
  completion_tokens : Option Nat := none

/-- `ChatCompletionChunk`. -/
structure ChatCompletionChunk where
  choices : List Choice := []
  error : Option Json := none
  usage : Option ChatUsage := none

/-- One complete SSE payload as seen by the streaming loop: the `[DONE]`
sentinel, an empty payload, a payload `serde_json` rejects, or a parsed
chunk.  (The `[DONE]`/empty tests and the parse are performed on the raw
string in the source; the parse itself is external-library behaviour.) -/
inductive BackendPayload where
  | doneMarker
  | emptyPayload
  | unparsable
  | chunk (c : ChatCompletionChunk)

/-! ### `src/handlers/responses.rs`: stream-orchestrator state machine -/

/-- `ToolCallState` (responses.rs lines 37-45). -/
structure ToolCallState where
  call_id : String
  item_id : String
  type_ : String
  name : Option String
  arguments : String
  item_added : Bool
  deriving DecidableEq, Repr

/-- The per-response identifiers fixed before streaming begins
(`request_id`, `message_id`, `reasoning_id_seed`). -/
structure Ctx where
  request_id : String
  message_id : String
  reasoning_id_seed : String
  deriving DecidableEq, Repr

/-- The orchestrator's mutable per-response state (the local variables of
the streaming task, responses.rs lines 639-658). -/
structure OrchState where
  accumulated_text : String
  accumulated_reasoning : String
  last_text_delta : Option String
  reasoning_started : Bool
  reasoning_item_id : Option String
  done : Bool
  final_status : String
  total_input_tokens : Nat
  total_output_tokens : Nat
  tool_calls : List (Nat × ToolCallState)
  next_xml_index : Nat
  xml_buffering : Bool
  deriving DecidableEq, Repr

/-- Initial orchestrator state. -/
def initOrchState : OrchState :=
  { accumulated_text := ""
    accumulated_reasoning := ""
    last_text_delta := none
    reasoning_started := false
    reasoning_item_id := none
    done := false
    final_status := "completed"
    total_input_tokens := 0
    total_output_tokens := 0
    tool_calls := []
    next_xml_index := 0
    xml_buffering := false }

/-- Lookup in the tool-call map (`HashMap::get`, keyed by backend index;
modelled as an association list). -/
def getEntry {α : Type} : List (Nat × α) → Nat → Option α
  | [], _ => none
  | (k', v) :: t, k => if k' = k then some v else getEntry t k

/-- Insert-or-replace in the tool-call map (`HashMap::insert` /
`entry().or_insert_with` followed by in-place mutation). -/
def setEntry {α : Type} : List (Nat × α) → Nat → α → List (Nat × α)
  | [], k, v => [(k, v)]
  | (k', v') :: t, k, v =>
    if k' = k then (k, v) :: t else (k', v') :: setEntry t k v

/-- Keys of the tool-call map. -/
def keysOf {α : Type} (m : List (Nat × α)) : List Nat := m.map Prod.fst

/-- The index-search loop for XML-salvaged tool calls (responses.rs lines
847-849): while the map contains `next_xml_index`, increment it. -/
def firstFree (keys : List Nat) (n : Nat) : Nat :=
  if h : n ∈ keys then firstFree keys (n + 1) else n
termination_by (keys.toFinset.filter (fun k => n ≤ k)).card
decreasing_by
  refine Finset.card_lt_card ⟨Finset.monotone_filter_right _ ?_, fun hsub => ?_⟩
  · intro k hk
    exact Nat.le_of_succ_le hk
  · have hn : n ∈ keys.toFinset.filter (fun k => n ≤ k) := by
      simp [List.mem_toFinset.mpr h]
    have := hsub hn
    simp at this

mutual

/-- `extract_text_delta` (responses.rs lines 1605-1636): recover text from
an arbitrary JSON delta shape. -/
def extract_text_delta : Json → Option String
  | .str text => some text
  | .obj fields =>
    let type_field := ((objGet fields "type").bind jsonAsStr).getD ""
    if type_field = "text" || type_field = "output_text" then
      (objGet fields "text").bind jsonAsStr
    else none
  | .arr items =>
    let combined := extractTextFromItems items ""
    if combined = "" then none else some combined
  | _ => none

/-- The array fold of `extract_text_delta`: newline-join the non-`None`
recursively recovered segments. -/
def extractTextFromItems : List Json → String → String
  | [], combined => combined
  | item :: rest, combined =>
    match extract_text_delta item with
    | some segment =>
      extractTextFromItems rest
        ((if combined = "" then combined else combined ++ "\n") ++ segment)
    | none => extractTextFromItems rest combined

end

/-! #### Emitted events (the `StreamEvent` literals of responses.rs) -/

/-- The `response.created` preamble event (responses.rs lines 515-564),
projected to the claim-relevant response fields. -/
def responseCreatedEvent : StreamEvent :=
  { type_ := "response.created"
    response_status := some "in_progress"
    response_output := some [] }

/-- The message `OutputItem` announced in the preamble (lines 583-594). -/
def preambleMessageItem (ctx : Ctx) : OutputItem :=
  { id := ctx.message_id
    type_ := "message"
    status := "in_progress"
    role := some "assistant"
    content := some [] }

/-- The preamble `response.output_item.added` for the message (lines
575-610). -/
def messageItemAddedEvent (ctx : Ctx) : StreamEvent :=
  { type_ := "response.output_item.added"
    item_id := some ctx.message_id
    output_index := some 0
    item := some (preambleMessageItem ctx) }

/-- The preamble `response.content_part.added` (lines 613-637). -/
def contentPartAddedEvent (ctx : Ctx) : StreamEvent :=
  { type_ := "response.content_part.added"
    item_id := some ctx.message_id
    output_index := some 0
    content_index := some 0 }

/-- Phase A: the three preamble events, emitted before any backend byte is
consumed. -/
def preambleEvents (ctx : Ctx) : List StreamEvent :=
  [responseCreatedEvent, messageItemAddedEvent ctx, contentPartAddedEvent ctx]

/-- `response.output_text.delta` for the message item (lines 736-752 and
973-989). -/
def outputTextDeltaEvent (ctx : Ctx) (s : String) : StreamEvent :=
  { type_ := "response.output_text.delta"
    item_id := some ctx.message_id
    output_index := some 0
    content_index := some 0
    delta := some s }

/-- `response.reasoning_text.delta` (lines 777-793). -/
def reasoningTextDeltaEvent (iid : Option String) (s : String) : StreamEvent :=
  { type_ := "response.reasoning_text.delta"
    item_id := iid
    output_index := some 0
    content_index := some 0
    delta := some s }

/-- `response.output_item.added` for an XML-salvaged call (lines 870-897). -/
def xmlItemAddedEvent (item_id nm : String) (output_idx : Nat) : StreamEvent :=
  { type_ := "response.output_item.added"
    item_id := some item_id
    output_index := some output_idx
    item := some { id := item_id
                   type_ := "function_call"
                   status := "in_progress"
                   call_id := some item_id
                   name := some nm }
    call_id := some item_id
    name := some nm }

/-- `response.function_call_arguments.done` for an XML-salvaged call
(lines 908-925). -/
def xmlArgsDoneEvent (item_id nm args : String) (output_idx : Nat) : StreamEvent :=
  { type_ := "response.function_call_arguments.done"
    item_id := some item_id
    output_index := some output_idx
    call_id := some item_id
    name := some nm
    arguments := some args }

/-- `response.output_item.added` for a native tool call on first sight of
its function name (lines 1058-1085). -/
def nativeItemAddedEvent (cs : ToolCallState) (output_idx : Nat) : StreamEvent :=
  { type_ := "response.output_item.added"
    item_id := some cs.item_id
    output_index := some output_idx
    item := some { id := cs.item_id
                   type_ := "function_call"
                   status := "in_progress"
                   call_id := some cs.call_id
                   name := cs.name
                   arguments := some "" }
    call_id := some cs.call_id }

/-- `response.function_call_arguments.delta` (lines 1105-1121). -/
def argsDeltaEvent (cs : ToolCallState) (output_idx : Nat) (frag : String) :
    StreamEvent :=
  { type_ := "response.function_call_arguments.delta"
    item_id := some cs.item_id
    output_index := some output_idx
    delta := some frag
    call_id := some cs.call_id }

/-- `response.reasoning_text.done` at finalisation (lines 1145-1161). -/
def reasoningTextDoneEvent (st : OrchState) : StreamEvent :=
  { type_ := "response.reasoning_text.done"
    item_id := st.reasoning_item_id
    output_index := some 0
    content_index := some 0
    text := some st.accumulated_reasoning }

/-- `response.output_text.done` at finalisation (lines 1180-1196). -/
def outputTextDoneEvent (ctx : Ctx) (st : OrchState) : StreamEvent :=
  { type_ := "response.output_text.done"
    item_id := some ctx.message_id
    output_index := some 0
    content_index := some 0
    text := some st.accumulated_text }

/-- `response.content_part.done` at finalisation (lines 1208-1224). -/
def contentPartDoneEvent (ctx : Ctx) : StreamEvent :=
  { type_ := "response.content_part.done"
    item_id := some ctx.message_id
    output_index := some 0
    content_index := some 0 }

/-- The completed message `OutputItem` (lines 1248-1262 and 1399-1413). -/
def completedMessageItem (ctx : Ctx) (st : OrchState) : OutputItem :=
  { id := ctx.message_id
    type_ := "message"
    status := "completed"
    role := some "assistant"
    content := some [.outputText st.accumulated_text] }

/-- `response.output_item.done` for the message (lines 1238-1268). -/
def messageItemDoneEvent (ctx : Ctx) (st : OrchState) : StreamEvent :=
  { type_ := "response.output_item.done"
    item_id := some ctx.message_id
    output_index := some 0
    item := some (completedMessageItem ctx st) }

/-- `response.function_call_arguments.done` per tool call at finalisation
(lines 1299-1315). -/
def finalArgsDoneEvent (idx : Nat) (cs : ToolCallState) : StreamEvent :=
  { type_ := "response.function_call_arguments.done"
    item_id := some cs.item_id
    output_index := some (idx + 1)
    call_id := some cs.call_id
    name := some (cs.name.getD "function_call")
    arguments := some cs.arguments }

/-- `response.output_item.done` per tool call at finalisation (lines
1333-1360). -/
def finalCallDoneEvent (idx : Nat) (cs : ToolCallState) : StreamEvent :=
  { type_ := "response.output_item.done"
    item_id := some cs.item_id
    output_index := some (idx + 1)
    item := some { id := cs.item_id
                   type_ := "function_call"
                   status := "completed"
                   call_id := some cs.call_id
                   name := some (cs.name.getD "function_call")
                   arguments := some cs.arguments }
    call_id := some cs.call_id }

/-- The two finalisation events of one tool call, in order. -/
def toolCallFinalEvents (idx : Nat) (cs : ToolCallState) : List StreamEvent :=
  [finalArgsDoneEvent idx cs, finalCallDoneEvent idx cs]

/-- The reasoning `OutputItem` of the completed response (lines 1381-1396). -/
def reasoningOutputItem (ctx : Ctx) (st : OrchState) : OutputItem :=
  { id := st.reasoning_item_id.getD ctx.reasoning_id_seed
    type_ := "reasoning"
    status := "completed"
    role := some "assistant"
    content := some [.reasoning st.accumulated_reasoning] }

/-- A completed `function_call` `OutputItem` of the final response (lines
1416-1430; note `name` is the raw `Option`, unlike the item-done event). -/
def finalFunctionCallItem (cs : ToolCallState) : OutputItem :=
  { id := cs.item_id
    type_ := "function_call"
    status := "completed"
    call_id := some cs.call_id
    name := cs.name
    arguments := some cs.arguments }

/-- The `output` list of the `response.completed` payload (lines
1378-1433): optional reasoning item, then always the message item, then
the tool-call items in ascending index order. -/
def outputItemsOf (ctx : Ctx) (st : OrchState)
    (sorted : List (Nat × ToolCallState)) : List OutputItem :=
  (if st.reasoning_started ∧ st.accumulated_reasoning ≠ ""
    then [reasoningOutputItem ctx st] else [])
  ++ [completedMessageItem ctx st]
  ++ sorted.map (fun p => finalFunctionCallItem p.2)

/-- The `response.completed` event (lines 1436-1505), projected to the
claim-relevant response fields. -/
def responseCompletedEvent (ctx : Ctx) (st : OrchState)
    (sorted : List (Nat × ToolCallState)) : StreamEvent :=
  { type_ := "response.completed"
    response_status := some st.final_status
    response_output := some (outputItemsOf ctx st sorted)
    incomplete_reason :=
      if st.final_status = "incomplete" then some "max_output_tokens" else none }

/-- Ascending insertion by backend index. -/
def insertByKey (p : Nat × ToolCallState) :
    List (Nat × ToolCallState) → List (Nat × ToolCallState)
  | [] => [p]
  | q :: t => if p.1 ≤ q.1 then p :: q :: t else q :: insertByKey p t

/-- Ascending sort by backend index (`sort_by_key`, line 1284; the map's
keys are unique, so any ascending sort realises it). -/
def sortByKeyAsc : List (Nat × ToolCallState) → List (Nat × ToolCallState)
  | [] => []
  | p :: t => insertByKey p (sortByKeyAsc t)

/-- The tool-call map sorted by backend index (`sort_by_key`, line 1284). -/
def sortedToolCalls (st : OrchState) : List (Nat × ToolCallState) :=
  sortByKeyAsc st.tool_calls

/-- Phase C (lines 1143-1514): reasoning done; message text/content/item
done only when text was accumulated; per-tool-call done pairs; the
completed event. -/
def finalize (ctx : Ctx) (st : OrchState) : List StreamEvent :=
  (if st.reasoning_started then [reasoningTextDoneEvent st] else [])
  ++ (if st.accumulated_text ≠ ""
      then [outputTextDoneEvent ctx st, contentPartDoneEvent ctx] else [])
  ++ (if st.accumulated_text ≠ "" then [messageItemDoneEvent ctx st] else [])
  ++ (sortedToolCalls st).flatMap (fun p => toolCallFinalEvents p.1 p.2)
  ++ [responseCompletedEvent ctx st (sortedToolCalls st)]

/-! #### Phase B: the streaming loop -/

/-- Default tool-call state for a previously unseen backend index
(lines 1011-1025). -/
def newToolCallState (ctx : Ctx) (tc : ToolCallDelta) : ToolCallState :=
  let fallback_id := "call_" ++ ctx.request_id ++ "_" ++ toString tc.index
  let call_id := tc.id.getD fallback_id
  { call_id := call_id
    item_id := call_id
    type_ := tc.type_.getD "function"
    name := none
    arguments := ""
    item_added := false }

/-- Handling of one native `ToolCallDelta` (lines 1010-1133): upsert the
state, emit `output_item.added` on first sight of a name, emit an
arguments delta per fragment; all at output index `tc.index + 1`. -/
def processToolCallDelta (ctx : Ctx) (st : OrchState) (tc : ToolCallDelta) :
    OrchState × List StreamEvent :=
  let cs0 := (getEntry st.tool_calls tc.index).getD (newToolCallState ctx tc)
  let cs1 := match tc.id with
    | some i => { cs0 with call_id := i, item_id := i }
    | none => cs0
  let cs2 := match tc.type_ with
    | some t => { cs1 with type_ := t }
    | none => cs1
  match tc.function with
  | none => ({ st with tool_calls := setEntry st.tool_calls tc.index cs2 }, [])
  | some func =>
    let r3 : ToolCallState × List StreamEvent :=
      match func.name with
      | some nm =>
        let cs := { cs2 with name := some nm }
        if cs.item_added then (cs, [])
        else
          let cs' := { cs with item_added := true }
          (cs', [nativeItemAddedEvent cs' (tc.index + 1)])
      | none => (cs2, [])
    let r4 : ToolCallState × List StreamEvent :=
      match func.arguments with
      | some args =>
        let cs := { r3.1 with arguments := r3.1.arguments ++ args }
        (cs, [argsDeltaEvent cs (tc.index + 1) args])
      | none => (r3.1, [])
    ({ st with tool_calls := setEntry st.tool_calls tc.index r4.1 }, r3.2 ++ r4.2)

/-- The `for tc in tool_calls_delta` loop (line 1010). -/
def processToolCalls (ctx : Ctx) (st : OrchState) :
    List ToolCallDelta → OrchState × List StreamEvent
  | [] => (st, [])
  | tc :: rest =>
    let r := processToolCallDelta ctx st tc
    let r' := processToolCalls ctx r.1 rest
    (r'.1, r.2 ++ r'.2)

/-- Conversion of one salvaged XML call into a synthetic tool-call state
plus its added/arguments-done events (lines 845-940): the call takes the
first index from `next_xml_index` upward that is free in the map. -/
def processOneXmlCall (ctx : Ctx) (st : OrchState) (xml_call : ParsedToolCall) :
    OrchState × List StreamEvent :=
  let call_idx := firstFree (keysOf st.tool_calls) st.next_xml_index
  let call_id := "call_xml_" ++ ctx.request_id ++ "_" ++ toString call_idx
  let call_state : ToolCallState :=
    { call_id := call_id
      item_id := call_id
      type_ := "function"
      name := some xml_call.name
      arguments := xml_call.arguments
      item_added := true }
  let st' := { st with tool_calls := setEntry st.tool_calls call_idx call_state
                       next_xml_index := call_idx + 1 }
  (st', [xmlItemAddedEvent call_id xml_call.name (call_idx + 1),
    xmlArgsDoneEvent call_id xml_call.name xml_call.arguments (call_idx + 1)])

/-- The `for xml_call in xml_calls` loop (line 845). -/
def processXmlCalls (ctx : Ctx) (st : OrchState) :
    List ParsedToolCall → OrchState × List StreamEvent
  | [] => (st, [])
  | c :: rest =>
    let r := processOneXmlCall ctx st c
    let r' := processXmlCalls ctx r.1 rest
    (r'.1, r.2 ++ r'.2)

/-- The text-delta emission tail of the content path (lines 962-1001):
deduplicate against the previously emitted delta (skipping the rest of
the chunk when equal), otherwise emit.  The `Bool` result is the Rust
`continue`. -/
def emitTextDelta (ctx : Ctx) (st : OrchState) (content_text : String) :
    OrchState × List StreamEvent × Bool :=
  if content_text ≠ "" ∧ st.xml_buffering = false then
    if st.last_text_delta = some content_text then (st, [], true)
    else ({ st with last_text_delta := some content_text },
      [outputTextDeltaEvent ctx content_text], false)
  else (st, [], false)

/-- The `delta.content` path (lines 807-1006): recover text, accumulate,
start/resolve XML buffering, emit or suppress the text delta.  The `Bool`
result is the Rust `continue` (which also skips the chunk's tool-call
deltas). -/
def processContentDelta (ctx : Ctx) (st : OrchState) (content : Json) :
    OrchState × List StreamEvent × Bool :=
  match extract_text_delta content with
  | none => (st, [], false)
  | some content_text =>
    if content_text = "" then (st, [], false)
    else
      let st1 := { st with accumulated_text := st.accumulated_text ++ content_text }
      let st2 :=
        if st1.xml_buffering = false ∧ strContains content_text "<function=" then
          { st1 with xml_buffering := true, last_text_delta := none }
        else st1
      if st2.xml_buffering then
        if strContains st2.accumulated_text "</tool_call>"
            || strContains st2.accumulated_text "</function>" then
          let r := extract_xml_tool_calls st2.accumulated_text
          if !r.2.isEmpty then
            let st3 := { st2 with accumulated_text := r.1 }
            let r2 := processXmlCalls ctx st3 r.2
            ({ r2.1 with xml_buffering := false }, r2.2, true)
          else
            emitTextDelta ctx { st2 with xml_buffering := false } content_text
        else (st2, [], true)
      else emitTextDelta ctx st2 content_text

/-- The `delta.reasoning_content` path (lines 763-804). -/
def processReasoningDelta (ctx : Ctx) (st : OrchState) (reasoning : String) :
    OrchState × List StreamEvent :=
  if reasoning ≠ "" then
    let st1 :=
      { st with accumulated_reasoning := st.accumulated_reasoning ++ reasoning }
    let st2 :=
      if st1.reasoning_started = false then
        { st1 with reasoning_item_id := some ctx.reasoning_id_seed
                   reasoning_started := true }
      else st1
    (st2, [reasoningTextDeltaEvent st2.reasoning_item_id reasoning])
  else (st, [])

/-- The usage capture (lines 721-728): last write wins per component. -/
def captureUsage (st : OrchState) (u : ChatUsage) : OrchState :=
  { st with total_input_tokens := u.prompt_tokens.getD st.total_input_tokens
            total_output_tokens := u.completion_tokens.getD st.total_output_tokens }

/-- The `delta` part of the per-choice handling (lines 761-1134):
reasoning delta, then content delta; a `continue` from the content path
(the `Bool` of `processContentDelta`) skips the tool-call deltas. -/
def processChoiceDelta (ctx : Ctx) (st : OrchState) (delta : Delta) :
    OrchState × List StreamEvent :=
  let r1 := match delta.reasoning_content with
    | some reasoning => processReasoningDelta ctx st reasoning
    | none => (st, [])
  let r2 := match delta.content with
    | some content => processContentDelta ctx r1.1 content
    | none => (r1.1, [], false)
  if r2.2.2 then (r2.1, r1.2 ++ r2.2.1)
  else
    let r3 := match delta.tool_calls with
      | some tcs => processToolCalls ctx r2.1 tcs
      | none => (r2.1, [])
    (r3.1, r1.2 ++ r2.2.1 ++ r3.2)

/-- Handling of one parsed backend chunk (lines 696-1135).  An in-chunk
`error` fails the response and stops the loop; otherwise only the FIRST
choice (`chunk.choices[0]`) is handled: finish-reason, usage,
non-streaming message content, reasoning delta, text delta, tool-call
deltas. -/
def processChunk (ctx : Ctx) (st : OrchState) (c : ChatCompletionChunk) :
    OrchState × List StreamEvent :=
  match c.error with
  | some _ => ({ st with final_status := "failed", done := true }, [])
  | none =>
    match c.choices with
    | [] => (st, [])
    | choice :: _ =>
      let stA := match choice.finish_reason with
        | some reason =>
          { st with final_status := translate_finish_reason (some reason) }
        | none => st
      let stB := match c.usage with
        | some usage => captureUsage stA usage
        | none => stA
      match choice.message with
      | some message =>
        match jsonGetStr message "content" with
        | some content =>
          ({ stB with accumulated_text := stB.accumulated_text ++ content },
            [outputTextDeltaEvent ctx content])
        | none => (stB, [])
      | none =>
        match choice.delta with
        | none => (stB, [])
        | some delta => processChoiceDelta ctx stB delta

/-- Phase B loop over the complete SSE payloads (lines 661-1141): `[DONE]`
stops, empty and unparsable payloads are skipped, chunks are processed;
an in-chunk error (which sets `done`) stops the loop. -/
def processPayloads (ctx : Ctx) : OrchState → List BackendPayload →
    OrchState × List StreamEvent
  | st, [] => (st, [])
  | st, p :: rest =>
    match p with
    | .doneMarker => ({ st with done := true }, [])
    | .emptyPayload => processPayloads ctx st rest
    | .unparsable => processPayloads ctx st rest
    | .chunk c =>
      let r := processChunk ctx st c
      if r.1.done then r
      else
        let r' := processPayloads ctx r.1 rest
        (r'.1, r.2 ++ r'.2)

/-- One whole successful response stream (the streaming task, lines
502-1514): preamble, loop, finalisation.  Returns the emitted events in
order and the final state. -/
def orchestratorRun (ctx : Ctx) (payloads : List BackendPayload) :
    List StreamEvent × OrchState :=
  let r := processPayloads ctx initOrchState payloads
  (preambleEvents ctx ++ r.2 ++ finalize ctx r.1, r.1)

/-! ### Circuit breaker bookkeeping at finalisation -/

/-- `CircuitBreakerState` (declared in `src/models`, fields per spec
section 4.6). -/
structure CircuitBreakerState where
  enabled : Bool
  consecutive_failures : Nat
  is_open : Bool
  opened_at : Option Nat
  failure_threshold : Nat
  cooldown : Nat
  deriving DecidableEq, Repr

/-- Modelled from the spec: `CircuitBreakerState::record_success` (its
implementation is not under `src/`; spec section 4.6 says it sets
`consecutive_failures = 0, is_open = false`). -/
def CircuitBreakerState.record_success (cb : CircuitBreakerState) :
    CircuitBreakerState :=
  { cb with consecutive_failures := 0, is_open := false }

/-- The whole streaming task including its breaker bookkeeping: after the
`response.completed` event the task spawns `record_success`
unconditionally (responses.rs lines 1516-1522), with no test of
`final_status`. -/
def streamTask (ctx : Ctx) (payloads : List BackendPayload)
    (cb : CircuitBreakerState) :
    (List StreamEvent × OrchState) × CircuitBreakerState :=
  (orchestratorRun ctx payloads, cb.record_success)

/-! ### Event-stream predicates used to state the invariant claims -/

/-- Invariant satisfied by every event the Phase-B streaming loop can emit:
it is none of the finalisation/terminal event types, and when it is an
`output_item.added` its output index is a successor (never the message's
index 0). -/
def loopEventOk (ev : StreamEvent) : Prop :=
  ev.type_ ≠ "response.output_text.done"
  ∧ ev.type_ ≠ "response.content_part.done"
  ∧ ev.type_ ≠ "response.output_item.done"
  ∧ ev.type_ ≠ "response.completed"
  ∧ (ev.type_ = "response.output_item.added" →
      ∃ k, ev.output_index = some (k + 1))

/-- `output_item.added` carrying output index 0 (the message item). -/
def pAdded0 (e : StreamEvent) : Bool :=
  e.type_ == "response.output_item.added" && e.output_index == some 0

/-- `output_text.done` events. -/
def pTextDone (e : StreamEvent) : Bool :=
  e.type_ == "response.output_text.done"

/-- `content_part.done` events. -/
def pContentDone (e : StreamEvent) : Bool :=
  e.type_ == "response.content_part.done"

/-- `output_item.done` carrying output index 0 (the message item). -/
def pItemDone0 (e : StreamEvent) : Bool :=
  e.type_ == "response.output_item.done" && e.output_index == some 0

/-! ### Claims C5 and C9 -/

/-- C5: the finish-reason translation maps `Some "stop"`, `Some "tool_calls"`
and any other `Some reason` to `"completed"`, `Some "length"` to
`"incomplete"`, `Some "content_filter"` to `"failed"`, and `None` to
`"in_progress"`, for every possible input. -/
theorem claim_C5_finish_reason_translation :
    translate_finish_reason none = "in_progress"
    ∧ translate_finish_reason (some "stop") = "completed"
    ∧ translate_finish_reason (some "tool_calls") = "completed"
    ∧ translate_finish_reason (some "length") = "incomplete"
    ∧ translate_finish_reason (some "content_filter") = "failed"
    ∧ ∀ s : String, s ≠ "length" → s ≠ "content_filter" →
        translate_finish_reason (some s) = "completed" := by
  refine ⟨rfl, rfl, rfl, rfl, rfl, ?_⟩
  intro s hl hc
  simp only [translate_finish_reason]
  split_ifs <;> simp_all

/-- Witness for C5 at the concrete reason `"weird"`. -/
theorem claim_C5_witness :
    ("weird" ≠ "length" ∧ "weird" ≠ "content_filter")
    ∧ translate_finish_reason (some "weird") = "completed" :=
  ⟨by decide,
    claim_C5_finish_reason_translation.2.2.2.2.2 "weird" (by decide) (by decide)⟩

/-- C9: on input containing none of the case-insensitive XML markers,
`extract_xml_tool_calls` returns the input trimmed of surrounding
whitespace together with an empty list of parsed calls. -/
theorem claim_C9_no_marker_passthrough (s : String)
    (h : contains_xml_tool_call s = false) :
    extract_xml_tool_calls s = (s.trim, []) := by
  simp [extract_xml_tool_calls, h]

/-- Witness for C9 at the concrete input `"  plain text  "`. -/
theorem claim_C9_witness :
    contains_xml_tool_call "  plain text  " = false
    ∧ extract_xml_tool_calls "  plain text  " = ("  plain text  ".trim, []) :=
  ⟨by decide, claim_C9_no_marker_passthrough _ (by decide)⟩

/-! ### Claim C1: sequencer stamping -/

theorem hexDigit_injOn {a b : Nat} (ha : a < 16) (hb : b < 16)
    (h : hexDigit a = hexDigit b) : a = b := by
  have H : ∀ x y : Fin 16, hexDigit x.val = hexDigit y.val → x = y := by decide
  have := H ⟨a, ha⟩ ⟨b, hb⟩ h
  exact congrArg Fin.val this

theorem nibbles_eq_mod (k : Nat) :
    ∀ a b : Nat, (∀ i, i < k → a / 16 ^ i % 16 = b / 16 ^ i % 16) →
      a % 16 ^ k = b % 16 ^ k := by
  induction k with
  | zero => intro a b _; simp [Nat.mod_one]
  | succ k ih =>
    intro a b h
    rw [pow_succ, Nat.mod_mul, Nat.mod_mul,
      ih a b (fun i hi => h i (Nat.lt_succ_of_lt hi)), h k (Nat.lt_succ_self k)]

theorem hex16_injOn {a b : Nat} (ha : a < 2 ^ 64) (hb : b < 2 ^ 64)
    (h : hex16 a = hex16 b) : a = b := by
  have hl : (List.range 16).map (fun i => hexDigit (a / 16 ^ (15 - i) % 16))
      = (List.range 16).map (fun i => hexDigit (b / 16 ^ (15 - i) % 16)) := by
    have := congrArg String.data h
    simpa [hex16] using this
  have hpt : ∀ i, i < 16 →
      hexDigit (a / 16 ^ (15 - i) % 16) = hexDigit (b / 16 ^ (15 - i) % 16) := by
    intro i hi
    have := congrArg (fun l => l[i]?) hl
    simpa [List.getElem?_map, List.getElem?_range hi] using this
  have hnib : ∀ j, j < 16 → a / 16 ^ j % 16 = b / 16 ^ j % 16 := by
    intro j hj
    have hji : 15 - (15 - j) = j := by omega
    have := hpt (15 - j) (by omega)
    rw [hji] at this
    exact hexDigit_injOn (Nat.mod_lt _ (by norm_num)) (Nat.mod_lt _ (by norm_num)) this
  have hmod := nibbles_eq_mod 16 a b hnib
  have h64 : (16 : Nat) ^ 16 = 2 ^ 64 := by norm_num
  rw [h64, Nat.mod_eq_of_lt ha, Nat.mod_eq_of_lt hb] at hmod
  exact hmod

theorem strAppend_cancel_left {s x y : String} (h : s ++ x = s ++ y) :
    x = y := by
  have hd : s.data ++ x.data = s.data ++ y.data := by
    have := congrArg String.data h
    simpa using this
  exact String.ext (List.append_cancel_left hd)

theorem stampAux_spec {α : Type} (rid : String) :
    ∀ (evs : List α) (eid s : Nat),
      s + evs.length ≤ U32_MAX →
      eid + evs.length ≤ U64_MAX →
      (stampAux rid ⟨eid, s⟩ evs).map (·.sequence_number)
          = List.range' (s + 1) evs.length
        ∧ (stampAux rid ⟨eid, s⟩ evs).map (·.event_id)
          = (List.range' (eid + 1) evs.length).map
              (fun k => "evt_" ++ rid ++ "_" ++ hex16 k) := by
  intro evs
  induction evs with
  | nil => intro eid s _ _; simp [stampAux]
  | cons e t ih =>
    intro eid s h32 h64
    simp only [List.length_cons] at h32 h64
    have hs : satAdd1 U32_MAX s = s + 1 := by
      simp only [satAdd1]
      omega
    have he : satAdd1 U64_MAX eid = eid + 1 := by
      simp only [satAdd1]
      omega
    have ihr := ih (eid + 1) (s + 1) (by omega) (by omega)
    simp only [stampAux, EventSequencer.prepare, hs, he, List.map_cons,
      List.length_cons, List.range']
    exact ⟨by rw [ihr.1], by rw [ihr.2]⟩

/-- C1: for every successful response stream, stamping the orchestrator's
emitted events through the sequencer (which increments its saturating
counters before each stamp) yields sequence numbers that are exactly
`1, 2, …, n` — strictly increasing and starting at 1 — and event ids of
the form `evt_<response_id>_<16-hex-digit zero-padded counter>`, pairwise
distinct within the response.  (Stated below the counters' saturation
points, which a stream would need `2^32` events to reach.) -/
theorem claim_C1_sequencer_stamping (ctx : Ctx) (rid : String)
    (payloads : List BackendPayload)
    (h : ((orchestratorRun ctx payloads).1).length ≤ U32_MAX) :
    ((stampRun rid (orchestratorRun ctx payloads).1).map (·.sequence_number)
        = List.range' 1 ((orchestratorRun ctx payloads).1).length)
    ∧ List.Pairwise (· < ·)
        ((stampRun rid (orchestratorRun ctx payloads).1).map (·.sequence_number))
    ∧ ((stampRun rid (orchestratorRun ctx payloads).1).map (·.event_id)
        = (List.range' 1 ((orchestratorRun ctx payloads).1).length).map
            (fun k => "evt_" ++ rid ++ "_" ++ hex16 k))
    ∧ List.Nodup
        ((stampRun rid (orchestratorRun ctx payloads).1).map (·.event_id)) := by
  have hle : ((orchestratorRun ctx payloads).1).length ≤ U64_MAX := by
    refine le_trans h ?_
    norm_num [U32_MAX, U64_MAX]
  have hspec := stampAux_spec rid (orchestratorRun ctx payloads).1 0 0
    (by simpa using h) (by simpa using hle)
  have hseq := hspec.1
  have heid := hspec.2
  simp only [stampRun, EventSequencer.new] at hseq heid ⊢
  refine ⟨hseq, ?_, heid, ?_⟩
  · rw [hseq]
    exact List.pairwise_lt_range' 1 _
  · rw [heid]
    refine (List.nodup_range' ..).map_on ?_
    intro a ha b hb hab
    have hU : U32_MAX < 2 ^ 64 := by norm_num [U32_MAX]
    have ha' : a < 2 ^ 64 := by
      have h2 := (List.mem_range'_1.mp ha).2
      omega
    have hb' : b < 2 ^ 64 := by
      have h2 := (List.mem_range'_1.mp hb).2
      omega
    have hx : hex16 a = hex16 b :=
      strAppend_cancel_left (s := "evt_" ++ rid ++ "_") (by
        simpa [String.append_assoc] using hab)
    exact hex16_injOn ha' hb' hx

/-- Witness for C1 at a concrete empty-payload run with response id
`"w"`. -/
theorem claim_C1_witness :
    (((orchestratorRun ⟨"r", "m", "g"⟩ []).1).length ≤ U32_MAX)
    ∧ ((stampRun "w" (orchestratorRun ⟨"r", "m", "g"⟩ []).1).map
        (·.sequence_number)
        = List.range' 1 ((orchestratorRun ⟨"r", "m", "g"⟩ []).1).length) :=
  ⟨by decide, (claim_C1_sequencer_stamping ⟨"r", "m", "g"⟩ "w" [] (by decide)).1⟩

/-! ### Claim C6: tool-call output indices -/

theorem firstFree_spec (keys : List Nat) (n : Nat) :
    firstFree keys n ∉ keys ∧ n ≤ firstFree keys n
    ∧ ∀ m, n ≤ m → m < firstFree keys n → m ∈ keys := by
  refine firstFree.induct keys
    (fun n => firstFree keys n ∉ keys ∧ n ≤ firstFree keys n
      ∧ ∀ m, n ≤ m → m < firstFree keys n → m ∈ keys) ?_ ?_ n
  · intro x hx ih
    have hf : firstFree keys x = firstFree keys (x + 1) := by
      rw [firstFree, dif_pos hx]
    refine ⟨by rw [hf]; exact ih.1, ?_, ?_⟩
    · rw [hf]
      exact le_trans (Nat.le_succ x) ih.2.1
    · intro m hm hlt
      rcases Nat.eq_or_lt_of_le hm with rfl | hlt'
      · exact hx
      · exact ih.2.2 m hlt' (by rw [← hf]; exact hlt)
  · intro x hx
    have hf : firstFree keys x = x := by rw [firstFree, dif_neg hx]
    refine ⟨by rw [hf]; exact hx, by rw [hf], ?_⟩
    intro m hm hlt
    rw [hf] at hlt
    omega

theorem keysOf_setEntry_fresh {α : Type} (m : List (Nat × α)) (k : Nat) (v : α)
    (hk : k ∉ keysOf m) : keysOf (setEntry m k v) = keysOf m ++ [k] := by
  induction m with
  | nil => simp [setEntry, keysOf]
  | cons p t ih =>
    have hk1 : p.1 ≠ k := by
      intro h
      exact hk (by simp [keysOf, h])
    have hk2 : k ∉ keysOf t := fun h => hk (by simp [keysOf] at h ⊢; exact Or.inr h)
    cases p with
    | mk k' v' =>
      simp only [setEntry, if_neg (by simpa using hk1), keysOf, List.map_cons]
      simpa [keysOf] using ih hk2

theorem processToolCallDelta_output_index (ctx : Ctx) (st : OrchState)
    (tc : ToolCallDelta) :
    ∀ ev ∈ (processToolCallDelta ctx st tc).2,
      ev.output_index = some (tc.index + 1) := by
  intro ev hev
  rcases tc with ⟨index, id, ty, fn⟩
  rcases fn with _ | ⟨fname, fargs⟩
  · simp [processToolCallDelta] at hev
  · rcases fname with _ | nm <;> rcases fargs with _ | args <;>
      simp only [processToolCallDelta] at hev <;>
      (repeat' split at hev) <;>
      simp_all [nativeItemAddedEvent, argsDeltaEvent] <;>
      (rcases hev with rfl | rfl <;> rfl)

theorem processOneXmlCall_output_index (ctx : Ctx) (st : OrchState)
    (xc : ParsedToolCall) :
    ∀ ev ∈ (processOneXmlCall ctx st xc).2,
      ev.output_index
        = some (firstFree (keysOf st.tool_calls) st.next_xml_index + 1) := by
  intro ev hev
  simp only [processOneXmlCall, List.mem_cons, List.not_mem_nil, or_false] at hev
  rcases hev with h | h <;> simp [h, xmlItemAddedEvent, xmlArgsDoneEvent]

theorem processOneXmlCall_keys (ctx : Ctx) (st : OrchState) (xc : ParsedToolCall) :
    keysOf ((processOneXmlCall ctx st xc).1.tool_calls)
      = keysOf st.tool_calls
        ++ [firstFree (keysOf st.tool_calls) st.next_xml_index]
    ∧ firstFree (keysOf st.tool_calls) st.next_xml_index ∉ keysOf st.tool_calls := by
  have hfree := (firstFree_spec (keysOf st.tool_calls) st.next_xml_index).1
  exact ⟨by simp only [processOneXmlCall]; exact keysOf_setEntry_fresh _ _ _ hfree, hfree⟩

theorem processXmlCalls_fresh (ctx : Ctx) :
    ∀ (calls : List ParsedToolCall) (st : OrchState),
      ∃ newKeys,
        keysOf ((processXmlCalls ctx st calls).1.tool_calls)
          = keysOf st.tool_calls ++ newKeys
        ∧ newKeys.Nodup ∧ ∀ i ∈ newKeys, i ∉ keysOf st.tool_calls := by
  intro calls
  induction calls with
  | nil => exact fun st => ⟨[], by simp [processXmlCalls], by simp, by simp⟩
  | cons c t ih =>
    intro st
    obtain ⟨hkeys, hfresh⟩ := processOneXmlCall_keys ctx st c
    obtain ⟨new', hk', hnd', hf'⟩ := ih (processOneXmlCall ctx st c).1
    refine ⟨firstFree (keysOf st.tool_calls) st.next_xml_index :: new', ?_, ?_, ?_⟩
    · show keysOf ((processXmlCalls ctx (processOneXmlCall ctx st c).1 t).1.tool_calls) = _
      rw [hk', hkeys, List.append_assoc]
      rfl
    · refine List.nodup_cons.mpr ⟨?_, hnd'⟩
      intro hmem
      exact hf' _ hmem (by rw [hkeys]; simp)
    · intro i hi
      rcases hi with _ | hi'
      · exact hfresh
      · intro hmem
        exact hf' i (by assumption) (by rw [hkeys]; exact List.mem_append_left _ hmem)

theorem toolCallFinalEvents_output_index (idx : Nat) (cs : ToolCallState) :
    ∀ ev ∈ toolCallFinalEvents idx cs, ev.output_index = some (idx + 1) := by
  intro ev hev
  simp only [toolCallFinalEvents, List.mem_cons, List.not_mem_nil, or_false] at hev
  rcases hev with h | h <;> simp [h, finalArgsDoneEvent, finalCallDoneEvent]

/-- C6: every event of a native tool call streamed at backend index `i`
carries `output_index = i + 1` (both the streaming events and the
finalisation pair), and every XML-salvaged call takes the smallest index
from `next_xml_index` upward that is absent from the tool-call map, so the
indices assigned to salvaged calls are pairwise distinct and never collide
with an index recorded so far. -/
theorem claim_C6_tool_call_indices :
    (∀ ctx st tc, ∀ ev ∈ (processToolCallDelta ctx st tc).2,
        ev.output_index = some (tc.index + 1))
    ∧ (∀ idx cs, ∀ ev ∈ toolCallFinalEvents idx cs,
        ev.output_index = some (idx + 1))
    ∧ (∀ keys n, firstFree keys n ∉ keys ∧ n ≤ firstFree keys n
        ∧ ∀ m, n ≤ m → m < firstFree keys n → m ∈ keys)
    ∧ (∀ ctx st xc, ∀ ev ∈ (processOneXmlCall ctx st xc).2,
        ev.output_index
          = some (firstFree (keysOf st.tool_calls) st.next_xml_index + 1))
    ∧ (∀ ctx st calls, ∃ newKeys,
        keysOf ((processXmlCalls ctx st calls).1.tool_calls)
          = keysOf st.tool_calls ++ newKeys
        ∧ newKeys.Nodup ∧ ∀ i ∈ newKeys, i ∉ keysOf st.tool_calls) :=
  ⟨processToolCallDelta_output_index, toolCallFinalEvents_output_index,
    firstFree_spec, processOneXmlCall_output_index,
    fun ctx st calls => processXmlCalls_fresh ctx calls st⟩

/-- Witness for C6: the minimality clause at `keys = [0]`, `n = 0`,
`m = 0` (where the first free index is 1), and the finalisation clause at
a concrete tool-call state. -/
theorem claim_C6_witness :
    ((0 ≤ 0 ∧ 0 < firstFree [0] 0) ∧ 0 ∈ [0])
    ∧ ((finalArgsDoneEvent 4 ⟨"c", "c", "function", some "f", "", true⟩
          ∈ toolCallFinalEvents 4 ⟨"c", "c", "function", some "f", "", true⟩)
        ∧ (finalArgsDoneEvent 4 ⟨"c", "c", "function", some "f", "", true⟩).output_index
          = some (4 + 1)) :=
  ⟨⟨⟨le_refl 0, by simp [firstFree]⟩,
      (claim_C6_tool_call_indices.2.2.1 [0] 0).2.2 0 (le_refl 0)
        (by simp [firstFree])⟩,
    ⟨by simp [toolCallFinalEvents],
      claim_C6_tool_call_indices.2.1 4 ⟨"c", "c", "function", some "f", "", true⟩
        (finalArgsDoneEvent 4 ⟨"c", "c", "function", some "f", "", true⟩)
        (by simp [toolCallFinalEvents])⟩⟩

/-! ### Claim C3: breaker bookkeeping at finalisation -/

/-- C3 counterexample: on a stream whose only chunk carries an in-chunk
`error`, the run finalises with `final_status = "failed"`, and the task
STILL records a circuit-breaker success (failures reset, breaker closed) —
refuting the claim that a success is recorded only when `final_status` is
not `"failed"`. -/
theorem claim_C3_counterexample :
    ((streamTask ⟨"r", "m", "g"⟩ [.chunk { error := some Json.null }]
        ⟨true, 2, true, some 5, 3, 60⟩).1.2.final_status = "failed")
    ∧ ((streamTask ⟨"r", "m", "g"⟩ [.chunk { error := some Json.null }]
        ⟨true, 2, true, some 5, 3, 60⟩).2.consecutive_failures = 0)
    ∧ ((streamTask ⟨"r", "m", "g"⟩ [.chunk { error := some Json.null }]
        ⟨true, 2, true, some 5, 3, 60⟩).2.is_open = false) :=
  ⟨rfl, rfl, rfl⟩

/-- C3 amended: at finalisation of every streamed response the orchestrator
records a circuit-breaker success unconditionally — also when an in-chunk
error set `final_status` to `"failed"`. -/
theorem claim_C3_amended (ctx : Ctx) (payloads : List BackendPayload)
    (cb : CircuitBreakerState) :
    (streamTask ctx payloads cb).2 = cb.record_success
    ∧ (streamTask ctx payloads cb).2.consecutive_failures = 0
    ∧ (streamTask ctx payloads cb).2.is_open = false :=
  ⟨rfl, rfl, rfl⟩

/-! ### Claim C7: per-choice handling -/

/-- C7 counterexample: a chunk whose SECOND choice carries
`finish_reason = "length"` leaves `final_status` at `"completed"` — the
translation of `"length"` is `"incomplete"`, so the second choice was not
handled, refuting the claim that every choice of the chunk is processed. -/
theorem claim_C7_counterexample :
    translate_finish_reason (some "length") = "incomplete"
    ∧ ((processChunk ⟨"r", "m", "g"⟩ initOrchState
        { choices := [{}, { finish_reason := some "length" }] }).1.final_status
      = "completed") :=
  ⟨rfl, rfl⟩

/-- C7 amended: for every parsed chunk with a non-empty choices array, the
streaming loop applies the per-choice handling to the FIRST choice only;
all remaining choices are ignored (the result does not depend on them). -/
theorem claim_C7_amended (ctx : Ctx) (st : OrchState) (ch : Choice)
    (rest : List Choice) (err : Option Json) (u : Option ChatUsage) :
    processChunk ctx st { choices := ch :: rest, error := err, usage := u }
      = processChunk ctx st { choices := [ch], error := err, usage := u } := by
  rcases err with _ | e <;> rfl

/-! ### Claim C10: the completed response's output list -/

theorem finalize_last (ctx : Ctx) (st : OrchState) :
    ∃ a, finalize ctx st
      = a ++ [responseCompletedEvent ctx st (sortedToolCalls st)] :=
  ⟨(if st.reasoning_started then [reasoningTextDoneEvent st] else [])
      ++ (if st.accumulated_text ≠ ""
          then [outputTextDoneEvent ctx st, contentPartDoneEvent ctx] else [])
      ++ (if st.accumulated_text ≠ "" then [messageItemDoneEvent ctx st] else [])
      ++ (sortedToolCalls st).flatMap (fun p => toolCallFinalEvents p.1 p.2),
    by simp [finalize, List.append_assoc]⟩

/-- C10: every run's event stream ends with the `response.completed` event,
whose `output` list always contains the message item — type `"message"`,
status `"completed"`, carrying the full accumulated text, even when that
text is empty — placed after the reasoning items (of which there are zero
or one) and before all `function_call` items. -/
theorem claim_C10_completed_output (ctx : Ctx) (payloads : List BackendPayload) :
    ∃ pre e rp fcs,
      (orchestratorRun ctx payloads).1 = pre ++ [e]
      ∧ e.type_ = "response.completed"
      ∧ e.response_status = some (orchestratorRun ctx payloads).2.final_status
      ∧ e.response_output
          = some (rp ++ completedMessageItem ctx (orchestratorRun ctx payloads).2 :: fcs)
      ∧ (∀ it ∈ rp, it.type_ = "reasoning")
      ∧ (completedMessageItem ctx (orchestratorRun ctx payloads).2).type_ = "message"
      ∧ (completedMessageItem ctx (orchestratorRun ctx payloads).2).status = "completed"
      ∧ (completedMessageItem ctx (orchestratorRun ctx payloads).2).content
          = some [.outputText (orchestratorRun ctx payloads).2.accumulated_text]
      ∧ (∀ it ∈ fcs, it.type_ = "function_call") := by
  obtain ⟨a, ha⟩ := finalize_last ctx (orchestratorRun ctx payloads).2
  refine ⟨preambleEvents ctx
      ++ (processPayloads ctx initOrchState payloads).2 ++ a,
    responseCompletedEvent ctx (orchestratorRun ctx payloads).2
      (sortedToolCalls (orchestratorRun ctx payloads).2),
    (if (orchestratorRun ctx payloads).2.reasoning_started
        ∧ (orchestratorRun ctx payloads).2.accumulated_reasoning ≠ ""
      then [reasoningOutputItem ctx (orchestratorRun ctx payloads).2] else []),
    (sortedToolCalls (orchestratorRun ctx payloads).2).map
      (fun p => finalFunctionCallItem p.2),
    ?_, rfl, rfl, ?_, ?_, rfl, rfl, rfl, ?_⟩
  · show (orchestratorRun ctx payloads).1 = _
    have h0 : (orchestratorRun ctx payloads).1
        = preambleEvents ctx ++ (processPayloads ctx initOrchState payloads).2
          ++ finalize ctx (orchestratorRun ctx payloads).2 := rfl
    rw [h0, ha]
    simp [List.append_assoc]
  · simp [responseCompletedEvent, outputItemsOf]
  · intro it hit
    split at hit
    · simp only [List.mem_singleton] at hit
      simp [hit, reasoningOutputItem]
    · cases hit
  · intro it hit
    simp only [List.mem_map] at hit
    obtain ⟨p, _, rfl⟩ := hit
    rfl

/-! ### Claim C4: message-item added/done lifecycle -/

theorem outputTextDelta_loopOk (ctx : Ctx) (s : String) :
    loopEventOk (outputTextDeltaEvent ctx s) := by
  simp [loopEventOk, outputTextDeltaEvent]

theorem reasoningTextDelta_loopOk (iid : Option String) (s : String) :
    loopEventOk (reasoningTextDeltaEvent iid s) := by
  simp [loopEventOk, reasoningTextDeltaEvent]

theorem processReasoningDelta_loopOk (ctx : Ctx) (st : OrchState) (r : String) :
    ∀ ev ∈ (processReasoningDelta ctx st r).2, loopEventOk ev := by
  intro ev hev
  simp only [processReasoningDelta] at hev
  split at hev
  · simp only [List.mem_singleton] at hev
    subst hev
    exact reasoningTextDelta_loopOk _ _
  · cases hev

theorem emitTextDelta_loopOk (ctx : Ctx) (st : OrchState) (s : String) :
    ∀ ev ∈ (emitTextDelta ctx st s).2.1, loopEventOk ev := by
  intro ev hev
  simp only [emitTextDelta] at hev
  repeat' split at hev
  all_goals first
    | (simp only [List.mem_singleton] at hev
       subst hev
       exact outputTextDelta_loopOk _ _)
    | cases hev

theorem processOneXmlCall_loopOk (ctx : Ctx) (st : OrchState)
    (xc : ParsedToolCall) :
    ∀ ev ∈ (processOneXmlCall ctx st xc).2, loopEventOk ev := by
  intro ev hev
  simp only [processOneXmlCall, List.mem_cons, List.not_mem_nil, or_false] at hev
  rcases hev with rfl | rfl
  · exact ⟨by simp [xmlItemAddedEvent], by simp [xmlItemAddedEvent],
      by simp [xmlItemAddedEvent], by simp [xmlItemAddedEvent],
      fun _ => ⟨firstFree (keysOf st.tool_calls) st.next_xml_index, rfl⟩⟩
  · simp [loopEventOk, xmlArgsDoneEvent]

theorem processXmlCalls_loopOk (ctx : Ctx) :
    ∀ (calls : List ParsedToolCall) (st : OrchState),
      ∀ ev ∈ (processXmlCalls ctx st calls).2, loopEventOk ev := by
  intro calls
  induction calls with
  | nil => intro st ev hev; cases hev
  | cons c t ih =>
    intro st ev hev
    rcases List.mem_append.mp hev with h | h
    · exact processOneXmlCall_loopOk ctx st c ev h
    · exact ih _ ev h

theorem processToolCallDelta_types (ctx : Ctx) (st : OrchState)
    (tc : ToolCallDelta) :
    ∀ ev ∈ (processToolCallDelta ctx st tc).2,
      ev.type_ = "response.output_item.added"
      ∨ ev.type_ = "response.function_call_arguments.delta" := by
  intro ev hev
  rcases tc with ⟨index, id, ty, fn⟩
  rcases fn with _ | ⟨fname, fargs⟩
  · simp [processToolCallDelta] at hev
  · rcases fname with _ | nm <;> rcases fargs with _ | args <;>
      simp only [processToolCallDelta] at hev <;>
      (repeat' split at hev) <;>
      simp_all [nativeItemAddedEvent, argsDeltaEvent] <;>
      (rcases hev with rfl | rfl <;> simp)

theorem processToolCallDelta_loopOk (ctx : Ctx) (st : OrchState)
    (tc : ToolCallDelta) :
    ∀ ev ∈ (processToolCallDelta ctx st tc).2, loopEventOk ev := by
  intro ev hev
  have hidx := processToolCallDelta_output_index ctx st tc ev hev
  rcases processToolCallDelta_types ctx st tc ev hev with h | h
  · exact ⟨by simp [h], by simp [h], by simp [h], by simp [h],
      fun _ => ⟨tc.index, hidx⟩⟩
  · exact ⟨by simp [h], by simp [h], by simp [h], by simp [h],
      fun ha => absurd ha (by simp [h])⟩

theorem processToolCalls_loopOk (ctx : Ctx) :
    ∀ (tcs : List ToolCallDelta) (st : OrchState),
      ∀ ev ∈ (processToolCalls ctx st tcs).2, loopEventOk ev := by
  intro tcs
  induction tcs with
  | nil => intro st ev hev; cases hev
  | cons tc t ih =>
    intro st ev hev
    rcases List.mem_append.mp hev with h | h
    · exact processToolCallDelta_loopOk ctx st tc ev h
    · exact ih _ ev h

theorem processContentDelta_loopOk (ctx : Ctx) (st : OrchState) (content : Json) :
    ∀ ev ∈ (processContentDelta ctx st content).2.1, loopEventOk ev := by
  intro ev hev
  simp only [processContentDelta] at hev
  repeat' split at hev
  all_goals first
    | cases hev
    | exact processXmlCalls_loopOk ctx _ _ ev hev
    | exact emitTextDelta_loopOk _ _ _ ev hev

theorem processChoiceDelta_loopOk (ctx : Ctx) (st : OrchState) (d : Delta) :
    ∀ ev ∈ (processChoiceDelta ctx st d).2, loopEventOk ev := by
  intro ev hev
  rcases d with ⟨content?, tcs?, reas?⟩
  rcases reas? with _ | r <;> rcases content? with _ | cj <;>
    rcases tcs? with _ | tcs <;>
    simp only [processChoiceDelta] at hev <;>
    (repeat' split at hev) <;>
    simp only [List.append_nil, List.nil_append, List.mem_append,
      List.not_mem_nil, or_false, false_or] at hev <;>
    first
      | (casesm* _ ∨ _ <;>
          solve_by_elim [processReasoningDelta_loopOk, processContentDelta_loopOk,
            processToolCalls_loopOk])
      | solve_by_elim [processReasoningDelta_loopOk, processContentDelta_loopOk,
          processToolCalls_loopOk]

theorem processChunk_loopOk (ctx : Ctx) (st : OrchState)
    (c : ChatCompletionChunk) :
    ∀ ev ∈ (processChunk ctx st c).2, loopEventOk ev := by
  intro ev hev
  rcases c with ⟨choices, err, usage⟩
  rcases err with _ | e
  · rcases choices with _ | ⟨choice, rest⟩
    · simp [processChunk] at hev
    · rcases choice with ⟨delta?, message?, fin?⟩
      rcases message? with _ | msg
      · rcases delta? with _ | d
        · simp [processChunk] at hev
        · simp only [processChunk] at hev
          exact processChoiceDelta_loopOk _ _ _ ev hev
      · simp only [processChunk] at hev
        split at hev
        · simp only [List.mem_singleton] at hev
          subst hev
          exact outputTextDelta_loopOk _ _
        · simp at hev
  · simp [processChunk] at hev

theorem processPayloads_loopOk (ctx : Ctx) :
    ∀ (payloads : List BackendPayload) (st : OrchState),
      ∀ ev ∈ (processPayloads ctx st payloads).2, loopEventOk ev := by
  intro payloads
  induction payloads with
  | nil => intro st ev hev; cases hev
  | cons p t ih =>
    intro st ev hev
    rcases p with _ | _ | _ | c
    · cases hev
    · exact ih st ev hev
    · exact ih st ev hev
    · simp only [processPayloads] at hev
      split at hev
      · exact processChunk_loopOk ctx st c ev hev
      · rcases List.mem_append.mp hev with h | h
        · exact processChunk_loopOk ctx st c ev h
        · exact ih _ ev h

theorem preamble_counts (ctx : Ctx) :
    (preambleEvents ctx).countP pAdded0 = 1
    ∧ (preambleEvents ctx).countP pTextDone = 0
    ∧ (preambleEvents ctx).countP pContentDone = 0
    ∧ (preambleEvents ctx).countP pItemDone0 = 0 := ⟨rfl, rfl, rfl, rfl⟩

theorem loopOk_not_pAdded0 {ev : StreamEvent} (h : loopEventOk ev) :
    ¬pAdded0 ev = true := by
  simp only [pAdded0, Bool.and_eq_true, beq_iff_eq]
  rintro ⟨h1, h2⟩
  obtain ⟨k, hk⟩ := h.2.2.2.2 h1
  rw [hk] at h2
  simp at h2

theorem loopOk_not_pTextDone {ev : StreamEvent} (h : loopEventOk ev) :
    ¬pTextDone ev = true := by
  simp only [pTextDone, beq_iff_eq]
  exact h.1

theorem loopOk_not_pContentDone {ev : StreamEvent} (h : loopEventOk ev) :
    ¬pContentDone ev = true := by
  simp only [pContentDone, beq_iff_eq]
  exact h.2.1

theorem loopOk_not_pItemDone0 {ev : StreamEvent} (h : loopEventOk ev) :
    ¬pItemDone0 ev = true := by
  simp only [pItemDone0, Bool.and_eq_true, beq_iff_eq]
  rintro ⟨h1, _⟩
  exact h.2.2.1 h1

theorem toolCallFinalEvents_types (idx : Nat) (cs : ToolCallState) :
    ∀ ev ∈ toolCallFinalEvents idx cs,
      ev.type_ = "response.function_call_arguments.done"
      ∨ ev.type_ = "response.output_item.done" := by
  intro ev hev
  simp only [toolCallFinalEvents, List.mem_cons, List.not_mem_nil, or_false] at hev
  rcases hev with rfl | rfl
  · exact Or.inl rfl
  · exact Or.inr rfl

theorem flatMapFinal_counts (l : List (Nat × ToolCallState)) :
    (l.flatMap (fun p => toolCallFinalEvents p.1 p.2)).countP pAdded0 = 0
    ∧ (l.flatMap (fun p => toolCallFinalEvents p.1 p.2)).countP pTextDone = 0
    ∧ (l.flatMap (fun p => toolCallFinalEvents p.1 p.2)).countP pContentDone = 0
    ∧ (l.flatMap (fun p => toolCallFinalEvents p.1 p.2)).countP pItemDone0 = 0 := by
  refine ⟨?_, ?_, ?_, ?_⟩ <;>
    refine List.countP_eq_zero.mpr ?_ <;>
    intro ev hev <;>
    obtain ⟨p, _, hevp⟩ := List.mem_flatMap.mp hev
  · rcases toolCallFinalEvents_types p.1 p.2 ev hevp with h | h <;>
      simp [pAdded0, h]
  · rcases toolCallFinalEvents_types p.1 p.2 ev hevp with h | h <;>
      simp [pTextDone, h]
  · rcases toolCallFinalEvents_types p.1 p.2 ev hevp with h | h <;>
      simp [pContentDone, h]
  · have hidx := toolCallFinalEvents_output_index p.1 p.2 ev hevp
    simp [pItemDone0, hidx]

theorem finalize_counts (ctx : Ctx) (st : OrchState) :
    (finalize ctx st).countP pAdded0 = 0
    ∧ (finalize ctx st).countP pTextDone
        = (if st.accumulated_text = "" then 0 else 1)
    ∧ (finalize ctx st).countP pContentDone
        = (if st.accumulated_text = "" then 0 else 1)
    ∧ (finalize ctx st).countP pItemDone0
        = (if st.accumulated_text = "" then 0 else 1) := by
  obtain ⟨hfa, hft, hfc, hfi⟩ := flatMapFinal_counts (sortedToolCalls st)
  by_cases ht : st.accumulated_text = "" <;> by_cases hr : st.reasoning_started <;>
    simp [finalize, List.countP_append, List.countP_cons, ht, hr, hfa, hft, hfc, hfi,
      pAdded0, pTextDone, pContentDone, pItemDone0, reasoningTextDoneEvent,
      outputTextDoneEvent, contentPartDoneEvent, messageItemDoneEvent,
      responseCompletedEvent]

/-- C4: in every response stream, the message item at output index 0 gets
exactly one `output_item.added` event (the preamble's); when the
accumulated text is non-empty at finalisation there is exactly one
`output_text.done`, one `content_part.done` and one matching
`output_item.done` for index 0 (the message-done event itself is in the
stream); when the accumulated text is empty, no `content_part.done` and
no `output_item.done` for index 0 is emitted at all. -/
theorem claim_C4_message_item_lifecycle (ctx : Ctx)
    (payloads : List BackendPayload) :
    ((orchestratorRun ctx payloads).1.countP pAdded0 = 1)
    ∧ ((orchestratorRun ctx payloads).2.accumulated_text ≠ "" →
        (orchestratorRun ctx payloads).1.countP pTextDone = 1
        ∧ (orchestratorRun ctx payloads).1.countP pContentDone = 1
        ∧ (orchestratorRun ctx payloads).1.countP pItemDone0 = 1
        ∧ messageItemDoneEvent ctx (orchestratorRun ctx payloads).2
            ∈ (orchestratorRun ctx payloads).1)
    ∧ ((orchestratorRun ctx payloads).2.accumulated_text = "" →
        (orchestratorRun ctx payloads).1.countP pContentDone = 0
        ∧ (orchestratorRun ctx payloads).1.countP pItemDone0 = 0) := by
  have hsplit : (orchestratorRun ctx payloads).1
      = preambleEvents ctx ++ (processPayloads ctx initOrchState payloads).2
        ++ finalize ctx (orchestratorRun ctx payloads).2 := rfl
  have hloopA : (processPayloads ctx initOrchState payloads).2.countP pAdded0 = 0 :=
    List.countP_eq_zero.mpr fun ev hev =>
      loopOk_not_pAdded0 (processPayloads_loopOk ctx payloads initOrchState ev hev)
  have hloopT : (processPayloads ctx initOrchState payloads).2.countP pTextDone = 0 :=
    List.countP_eq_zero.mpr fun ev hev =>
      loopOk_not_pTextDone (processPayloads_loopOk ctx payloads initOrchState ev hev)
  have hloopC : (processPayloads ctx initOrchState payloads).2.countP pContentDone = 0 :=
    List.countP_eq_zero.mpr fun ev hev =>
      loopOk_not_pContentDone (processPayloads_loopOk ctx payloads initOrchState ev hev)
  have hloopI : (processPayloads ctx initOrchState payloads).2.countP pItemDone0 = 0 :=
    List.countP_eq_zero.mpr fun ev hev =>
      loopOk_not_pItemDone0 (processPayloads_loopOk ctx payloads initOrchState ev hev)
  obtain ⟨hpa, hpt, hpc, hpi⟩ := preamble_counts ctx
  obtain ⟨hfa, hft, hfc, hfi⟩ :=
    finalize_counts ctx (orchestratorRun ctx payloads).2
  refine ⟨?_, ?_, ?_⟩
  · rw [hsplit, List.countP_append, List.countP_append, hpa, hloopA, hfa]
  · intro ht
    rw [if_neg ht] at hft hfc hfi
    refine ⟨?_, ?_, ?_, ?_⟩
    · rw [hsplit, List.countP_append, List.countP_append, hpt, hloopT, hft]
    · rw [hsplit, List.countP_append, List.countP_append, hpc, hloopC, hfc]
    · rw [hsplit, List.countP_append, List.countP_append, hpi, hloopI, hfi]
    · rw [hsplit]
      refine List.mem_append_right _ ?_
      unfold finalize
      refine List.mem_append_left _ (List.mem_append_left _
        (List.mem_append_right _ ?_))
      rw [if_pos ht]
      exact List.mem_singleton_self _
  · intro ht
    rw [if_pos ht] at hfc hfi
    constructor
    · rw [hsplit, List.countP_append, List.countP_append, hpc, hloopC, hfc]
    · rw [hsplit, List.countP_append, List.countP_append, hpi, hloopI, hfi]

/-- Witness for C4: a one-chunk stream producing the text `"hi"` (text
non-empty at finalisation). -/
theorem claim_C4_witness :
    ((orchestratorRun ⟨"r", "m", "g"⟩
        [.chunk { choices := [{ delta := some { content := some (.str "hi") } }] }]).2.accumulated_text
      ≠ "")
    ∧ ((orchestratorRun ⟨"r", "m", "g"⟩
        [.chunk { choices := [{ delta := some { content := some (.str "hi") } }] }]).1.countP
          pTextDone = 1) :=
  ⟨by decide,
    ((claim_C4_message_item_lifecycle ⟨"r", "m", "g"⟩
      [.chunk { choices := [{ delta := some { content := some (.str "hi") } }] }]).2.1
      (by decide)).1⟩

/-! ### Claim C8: `function_call_output` translation -/

/-- C8: a `function_call_output` input item emits exactly one chat message
with role `"tool"` and `tool_call_id` equal to the item's `call_id`, whose
content is the inner `"output"` string when the item's output parses as
JSON with a string field `"output"`, and the raw output string otherwise
(parse failure, missing field, or non-string field). -/
theorem claim_C8_function_call_output (parse : String → Option Json)
    (ws : WalkState) (call_id output : String) :
    (processInputItem parse ws (.functionCallOutput call_id output)
      = { ws with messages := ws.messages ++
          [{ role := "tool"
             content := some (Json.str (fcOutputContent (parse output) output))
             tool_calls := none
             tool_call_id := some call_id }] })
    ∧ (∀ p s, parse output = some p → jsonGetStr p "output" = some s →
        fcOutputContent (parse output) output = s)
    ∧ (parse output = none → fcOutputContent (parse output) output = output)
    ∧ (∀ p, parse output = some p → jsonGetStr p "output" = none →
        fcOutputContent (parse output) output = output) := by
  refine ⟨rfl, ?_, ?_, ?_⟩
  · intro p s hp hs
    rw [hp]
    simp [fcOutputContent, hs]
  · intro hp
    rw [hp]
    rfl
  · intro p hp hs
    rw [hp]
    simp [fcOutputContent, hs]

/-- Witness for C8 at a parse result carrying an inner `"output"` string. -/
theorem claim_C8_witness :
    ((fun _ : String => some (Json.obj [("output", Json.str "inner")])) "raw"
        = some (Json.obj [("output", Json.str "inner")])
      ∧ jsonGetStr (Json.obj [("output", Json.str "inner")]) "output"
        = some "inner")
    ∧ fcOutputContent
        ((fun _ : String => some (Json.obj [("output", Json.str "inner")])) "raw")
        "raw" = "inner" :=
  ⟨⟨rfl, rfl⟩,
    (claim_C8_function_call_output
      (fun _ => some (Json.obj [("output", Json.str "inner")]))
      ⟨[], [], []⟩ "c" "raw").2.1 _ "inner" rfl rfl⟩

/-! ### Claim C2: the tools field of the translated request -/

/-- C2 counterexample: a request with NO tools at all is translated with
`tools = Some [apply_patch, read_file, list_dir, grep_files]` (the
injected defaults), not `None` as the claim requires when no function
tools remain. -/
theorem claim_C2_counterexample :
    convertedTools none
      = some [applyPatchTool, readFileTool, listDirTool, grepFilesTool]
    ∧ (convertedTools none).isSome = true
    ∧ ((convert_to_chat_completions (fun _ => none)
          { model := some "m" }).toOption.map (fun cr => cr.tools))
      = some (some [applyPatchTool, readFileTool, listDirTool, grepFilesTool]) :=
  ⟨rfl, rfl, rfl⟩

theorem toolExists_append (a b : List ChatTool) (nm : String) :
    toolExists (a ++ b) nm = (toolExists a nm || toolExists b nm) := by
  simp [toolExists, List.any_append]

theorem applyPatchTool_name : applyPatchTool.toolName = "apply_patch" := rfl

theorem readFileTool_name : readFileTool.toolName = "read_file" := rfl

theorem listDirTool_name : listDirTool.toolName = "list_dir" := rfl

theorem grepFilesTool_name : grepFilesTool.toolName = "grep_files" := rfl

theorem toolExists_nil (nm : String) : toolExists [] nm = false := rfl

theorem toolExists_cons (t : ChatTool) (ts : List ChatTool) (nm : String) :
    toolExists (t :: ts) nm = (decide (t.toolName = nm) || toolExists ts nm) := by
  cases t
  simp [toolExists, ChatTool.toolName]

theorem injectSteps_eq_filter (conv : List ChatTool) (orig : List String) :
    injectStep orig
      (injectStep orig
        (injectStep orig
          (injectStep orig conv "apply_patch" applyPatchTool)
          "read_file" readFileTool)
        "list_dir" listDirTool)
      "grep_files" grepFilesTool
    = conv ++ [applyPatchTool, readFileTool, listDirTool, grepFilesTool].filter
        (fun tl => !(toolExists conv tl.toolName
          || orig.any (fun n => n = tl.toolName))) := by
  cases hc1 : (toolExists conv "apply_patch"
      || orig.any (fun n => n = "apply_patch")) <;>
  cases hc2 : (toolExists conv "read_file"
      || orig.any (fun n => n = "read_file")) <;>
  cases hc3 : (toolExists conv "list_dir"
      || orig.any (fun n => n = "list_dir")) <;>
  cases hc4 : (toolExists conv "grep_files"
      || orig.any (fun n => n = "grep_files")) <;>
    simp [injectStep, toolExists_append, toolExists_cons, toolExists_nil,
      applyPatchTool_name, readFileTool_name, listDirTool_name, grepFilesTool_name,
      List.filter, hc1, hc2, hc3, hc4, List.append_assoc]

/-- C2 amended: the translated request's tools field is the function tools
of the request re-emitted in nested form (non-function tools dropped),
followed by an injected built-in default for each of `apply_patch`,
`read_file`, `list_dir`, `grep_files` whose name occurs neither among the
converted function tools nor among the original tools' names; the field is
`None` only when that whole list is empty. -/
theorem claim_C2_amended :
    (∀ toolsField : Option (List Tool), ∃ inj,
        convertedTools toolsField
          = (if (baseFunctionTools toolsField ++ inj).isEmpty then none
             else some (baseFunctionTools toolsField ++ inj))
        ∧ inj.Sublist [applyPatchTool, readFileTool, listDirTool, grepFilesTool]
        ∧ ∀ t ∈ inj,
            t.toolName ∉ (toolsField.getD []).map (·.function_def.name))
    ∧ (∀ parse req m cr, req.model = some m →
        convert_to_chat_completions parse req = .ok cr →
        cr.tools = convertedTools req.tools) := by
  constructor
  · intro toolsField
    refine ⟨[applyPatchTool, readFileTool, listDirTool, grepFilesTool].filter
      (fun tl => !(toolExists (baseFunctionTools toolsField) tl.toolName
        || ((toolsField.getD []).map (·.function_def.name)).any
            (fun n => n = tl.toolName))), ?_, List.filter_sublist _, ?_⟩
    · show convertedTools toolsField = _
      simp only [convertedTools]
      rw [injectSteps_eq_filter]
    · intro t ht
      have hkeep := (List.mem_filter.mp ht).2
      simp only [Bool.not_eq_true', Bool.or_eq_false_iff] at hkeep
      intro hmem
      have : ((toolsField.getD []).map (·.function_def.name)).any
          (fun n => n = t.toolName) = true :=
        List.any_eq_true.mpr ⟨t.toolName, hmem, by simp⟩
      rw [hkeep.2] at this
      cases this
  · intro parse req m cr hm hcr
    simp only [convert_to_chat_completions, hm] at hcr
    cases hcr
    rfl

/-- Witness for C2's amended claim at a request with model `"m"` and no
tools. -/
theorem claim_C2_witness :
    (({ model := some "m" } : ResponseRequest).model = some "m"
      ∧ convert_to_chat_completions (fun _ => none) { model := some "m" }
        = .ok { model := "m", messages := [], max_tokens := none,
                temperature := none, top_p := none,
                tools := convertedTools none, tool_choice := none,
                parallel_tool_calls := none, stream := false })
    ∧ ({ model := "m", messages := [], max_tokens := none, temperature := none,
          top_p := none, tools := convertedTools none, tool_choice := none,
          parallel_tool_calls := none, stream := false }
        : ChatCompletionRequest).tools
      = convertedTools ({ model := some "m" } : ResponseRequest).tools :=
  ⟨⟨rfl, rfl⟩, claim_C2_amended.2 (fun _ => none) { model := some "m" } "m" _ rfl rfl⟩

end ResponsesProxy
